import Mathlib

/-!
A verification development for a two-transport chat system: a centralized
TCP client/server chat (tcp_client_server_chat.py) and a decentralized UDP
peer-to-peer chat (udp_p2p_chat.py).

The wire codec, the server session registry and request loop, the client
join state machine, and the UDP datagram handler are shallowly embedded as
executable Lean functions.  Byte streams are lists of natural numbers (byte
values); a finite stream models everything the peer sent before closing,
so a read that runs past the end of the list models a read at end of
stream.  Fallible operations (a struct.error, an unhandled exception)
return Option, with none for failure.
-/

namespace Chat

/-! ### UTF-8 codec, modelling Python str.encode() and bytes.decode()

Python encodes and decodes strict UTF-8.  The encoder below produces, for
each character, the standard 1-4 byte sequence (written with division and
remainder by powers of two, which agree with the usual bit operations).
The decoder accepts exactly the well-formed sequences: continuation bytes
in [128,192), no overlong forms, no surrogates, codepoints below 0x110000.
-/

def utf8EncodeChar (c : Char) : List Nat :=
  if c.toNat < 128 then [c.toNat]
  else if c.toNat < 2048 then [192 + c.toNat / 64, 128 + c.toNat % 64]
  else if c.toNat < 65536 then
    [224 + c.toNat / 4096, 128 + c.toNat / 64 % 64, 128 + c.toNat % 64]
  else
    [240 + c.toNat / 262144, 128 + c.toNat / 4096 % 64, 128 + c.toNat / 64 % 64,
      128 + c.toNat % 64]

/-- A whole string's UTF-8 bytes (Python str.encode). -/
def utf8Encode (s : String) : List Nat := s.data.flatMap utf8EncodeChar

def utf8DecodeOne (l : List Nat) : Option (Char × List Nat) :=
  if l.length = 0 then none
  else
    let b0 := l.headD 0
    let r1 := l.tail
    if b0 < 128 then some (Char.ofNat b0, r1)
    else if 194 ≤ b0 ∧ b0 < 224 then
      if r1.length = 0 then none
      else
        let b1 := r1.headD 0
        if 128 ≤ b1 ∧ b1 < 192 then
          some (Char.ofNat ((b0 - 192) * 64 + (b1 - 128)), r1.tail)
        else none
    else if 224 ≤ b0 ∧ b0 < 240 then
      if r1.length < 2 then none
      else
        let b1 := r1.headD 0
        let b2 := r1.tail.headD 0
        if (128 ≤ b1 ∧ b1 < 192) ∧ (128 ≤ b2 ∧ b2 < 192) then
          let v := (b0 - 224) * 4096 + (b1 - 128) * 64 + (b2 - 128)
          if 2048 ≤ v ∧ ¬(55296 ≤ v ∧ v < 57344) then some (Char.ofNat v, r1.tail.tail)
          else none
        else none
    else if 240 ≤ b0 ∧ b0 < 245 then
      if r1.length < 3 then none
      else
        let b1 := r1.headD 0
        let b2 := r1.tail.headD 0
        let b3 := r1.tail.tail.headD 0
        if (128 ≤ b1 ∧ b1 < 192) ∧ (128 ≤ b2 ∧ b2 < 192) ∧ (128 ≤ b3 ∧ b3 < 192) then
          let v := (b0 - 240) * 262144 + (b1 - 128) * 4096 + (b2 - 128) * 64 + (b3 - 128)
          if 65536 ≤ v ∧ v < 1114112 then some (Char.ofNat v, r1.tail.tail.tail)
          else none
        else none
    else none

theorem utf8DecodeOne_length {l : List Nat} {c : Char} {rest : List Nat}
    (h : utf8DecodeOne l = some (c, rest)) : rest.length < l.length := by
  simp only [utf8DecodeOne] at h
  split_ifs at h <;>
    simp only [Option.some.injEq, Prod.mk.injEq, reduceCtorEq] at h <;>
    obtain ⟨-, rfl⟩ := h <;>
    simp only [List.length_tail] <;>
    omega

def utf8DecodeChars (l : List Nat) : Option (List Char) :=
  if l.length = 0 then some []
  else
    match h : utf8DecodeOne l with
    | none => none
    | some cr => (utf8DecodeChars cr.2).map (fun cs => cr.1 :: cs)
termination_by l.length
decreasing_by exact utf8DecodeOne_length h

theorem utf8EncodeChar_ne_nil (c : Char) : utf8EncodeChar c ≠ [] := by
  unfold utf8EncodeChar
  split_ifs <;> simp

set_option maxHeartbeats 1600000 in
theorem utf8DecodeOne_encodeChar (c : Char) (rest : List Nat) :
    utf8DecodeOne (utf8EncodeChar c ++ rest) = some (c, rest) := by
  have hv : c.toNat < 55296 ∨ (57343 < c.toNat ∧ c.toNat < 1114112) := c.valid
  unfold utf8EncodeChar
  by_cases h1 : c.toNat < 128
  · rw [if_pos h1]
    simp only [List.cons_append, List.nil_append, utf8DecodeOne,
      List.length_cons, List.headD_cons, List.tail_cons]
    split_ifs <;> try omega
    all_goals try exact False.elim (by assumption)
    rw [Char.ofNat_toNat]
  · by_cases h2 : c.toNat < 2048
    · rw [if_neg h1, if_pos h2]
      simp only [List.cons_append, List.nil_append, utf8DecodeOne,
        List.length_cons, List.headD_cons, List.tail_cons]
      split_ifs <;> try omega
      all_goals try exact False.elim (by assumption)
      rw [show (192 + c.toNat / 64 - 192) * 64 + (128 + c.toNat % 64 - 128) = c.toNat from by
        omega, Char.ofNat_toNat]
    · by_cases h3 : c.toNat < 65536
      · rw [if_neg h1, if_neg h2, if_pos h3]
        simp only [List.cons_append, List.nil_append, utf8DecodeOne,
          List.length_cons, List.headD_cons, List.tail_cons]
        split_ifs <;> try omega
        all_goals try exact False.elim (by assumption)
        rw [show (224 + c.toNat / 4096 - 224) * 4096 + (128 + c.toNat / 64 % 64 - 128) * 64
          + (128 + c.toNat % 64 - 128) = c.toNat from by omega, Char.ofNat_toNat]
      · rw [if_neg h1, if_neg h2, if_neg h3]
        simp only [List.cons_append, List.nil_append, utf8DecodeOne,
          List.length_cons, List.headD_cons, List.tail_cons]
        split_ifs <;> try omega
        all_goals try exact False.elim (by assumption)
        rw [show (240 + c.toNat / 262144 - 240) * 262144 + (128 + c.toNat / 4096 % 64 - 128) * 4096
          + (128 + c.toNat / 64 % 64 - 128) * 64 + (128 + c.toNat % 64 - 128) = c.toNat from by
          omega, Char.ofNat_toNat]

theorem utf8DecodeChars_encode_chars (cs : List Char) (rest : List Nat) :
    utf8DecodeChars (cs.flatMap utf8EncodeChar ++ rest) =
      (utf8DecodeChars rest).map (fun tl => cs ++ tl) := by
  induction cs with
  | nil =>
    simp only [List.flatMap_nil, List.nil_append]
    cases utf8DecodeChars rest <;> simp
  | cons c cs ih =>
    rw [List.flatMap_cons, List.append_assoc, utf8DecodeChars.eq_def]
    have hne : ¬((utf8EncodeChar c ++ (cs.flatMap utf8EncodeChar ++ rest)).length = 0) := by
      simp only [List.length_append]
      cases hE : utf8EncodeChar c with
      | nil => exact absurd hE (utf8EncodeChar_ne_nil c)
      | cons x xs => simp
    rw [if_neg hne]
    split
    · next heq =>
      rw [utf8DecodeOne_encodeChar] at heq
      exact absurd heq (by simp)
    · next cr heq =>
      rw [utf8DecodeOne_encodeChar] at heq
      obtain rfl : cr = (c, cs.flatMap utf8EncodeChar ++ rest) := by
        injection heq with h
        exact h.symm
      simp only [ih]
      cases utf8DecodeChars rest <;> simp

theorem utf8DecodeChars_utf8Encode_append (s : String) (rest : List Nat) :
    utf8DecodeChars (utf8Encode s ++ rest) =
      (utf8DecodeChars rest).map (fun tl => s.data ++ tl) :=
  utf8DecodeChars_encode_chars s.data rest

theorem utf8DecodeChars_utf8Encode (s : String) :
    utf8DecodeChars (utf8Encode s) = some s.data := by
  have h := utf8DecodeChars_encode_chars s.data []
  rw [List.append_nil] at h
  rw [utf8Encode, h, utf8DecodeChars]
  simp

theorem string_mk_data (s : String) : String.mk s.data = s := rfl

/-! ### Wire framing, modelling the module-level codec of
tcp_client_server_chat.py (lines 11-73) together with the struct module
calls it makes ('<i' is a little-endian signed 32-bit integer, '<?' a one
byte boolean) and asyncio's StreamReader.read.

reader.read(n) on a stream whose remaining contents are the list s
returns up to n bytes (fewer only at end of stream); read with a negative
argument reads everything up to end of stream. struct.pack('<i', v)
raises for v outside the signed 32-bit range; struct.unpack raises
(struct.error) when the buffer length differs from the format size. -/

/-- asyncio reader.read(n): the bytes obtained and the rest of the stream. -/
def readBytes (n : Int) (s : List Nat) : List Nat × List Nat :=
  if n < 0 then (s, []) else (s.take n.toNat, s.drop n.toNat)

/-- recv_formatted_data (lines 11-17) specialised to a format of the given
byte size: reads size bytes and unpacks them; a short read makes
struct.unpack raise struct.error, modelled as none. -/
def recv_formatted_data (size : Nat) (s : List Nat) : Option (List Nat × List Nat) :=
  if s.length < size then none else some (s.take size, s.drop size)

/-- struct.unpack('<i', b) on a 4-byte buffer: little-endian, two's
complement signed. -/
def unpack_i32 (b : List Nat) : Int :=
  let u := b.headD 0 + 256 * b.tail.headD 0 + 65536 * b.tail.tail.headD 0
    + 16777216 * b.tail.tail.tail.headD 0
  if u < 2147483648 then (u : Int) else (u : Int) - 4294967296

/-- recv_single_value(reader, '<i') (lines 20-26). -/
def recv_single_value_i (s : List Nat) : Option (Int × List Nat) :=
  (recv_formatted_data 4 s).map (fun p => (unpack_i32 p.1, p.2))

/-- recv_single_value(reader, '<?') (lines 20-26): any nonzero byte is True. -/
def recv_single_value_b (s : List Nat) : Option (Bool × List Nat) :=
  (recv_formatted_data 1 s).map (fun p => (decide (p.1.headD 0 ≠ 0), p.2))

/-- recv_str (lines 29-35): reads a 4-byte length, then reads that many
bytes with reader.read (which does NOT check how many bytes it actually
obtained), then bytes.decode.  none exactly when the length read raises
struct.error or the decode raises UnicodeDecodeError. -/
def recv_str (s : List Nat) : Option (String × List Nat) :=
  (recv_single_value_i s).bind (fun p =>
    (utf8DecodeChars (readBytes p.1 p.2).1).bind (fun cs =>
      some (String.mk cs, (readBytes p.1 p.2).2)))

/-- The comprehension in recv_str_list: n successive recv_str calls. -/
def recv_str_n : Nat → List Nat → Option (List String × List Nat)
  | 0, s => some ([], s)
  | n + 1, s =>
    (recv_str s).bind (fun p =>
      (recv_str_n n p.2).bind (fun q => some (p.1 :: q.1, q.2)))

/-- recv_str_list (lines 38-44): a 4-byte count then that many strings
(range of a negative count is empty, hence Int.toNat). -/
def recv_str_list (s : List Nat) : Option (List String × List Nat) :=
  (recv_single_value_i s).bind (fun p => recv_str_n p.1.toNat p.2)

/-- struct.pack('<i', n) for the nonnegative values the programs pack
(tags, lengths): raises (none) outside the signed 32-bit range. -/
def pack_i32 (n : Nat) : Option (List Nat) :=
  if n < 2147483648 then
    some [n % 256, n / 256 % 256, n / 65536 % 256, n / 16777216 % 256]
  else none

/-- send_str (lines 54-62): the bytes written, namely a 4-byte length
prefix (the byte count of the encoded text) followed by the encoded
bytes.  none when struct.pack raises on an oversized length. -/
def send_str (s : String) : Option (List Nat) :=
  match pack_i32 (utf8Encode s).length with
  | none => none
  | some pre => some (pre ++ utf8Encode s)

/-- The loop in send_str_list: each string sent with send_str. -/
def send_str_each : List String → Option (List Nat)
  | [] => some []
  | x :: xs =>
    match send_str x, send_str_each xs with
    | some b, some r => some (b ++ r)
    | _, _ => none

/-- send_str_list (lines 65-73): a 4-byte element count then each string
via send_str. -/
def send_str_list (l : List String) : Option (List Nat) :=
  match pack_i32 l.length, send_str_each l with
  | some pre, some body => some (pre ++ body)
  | _, _ => none

theorem pack_i32_lt {n : Nat} {b : List Nat} (h : pack_i32 n = some b) :
    n < 2147483648 := by
  unfold pack_i32 at h
  split_ifs at h with hlt
  exact hlt

theorem pack_i32_eq {n : Nat} {b : List Nat} (h : pack_i32 n = some b) :
    b = [n % 256, n / 256 % 256, n / 65536 % 256, n / 16777216 % 256] := by
  unfold pack_i32 at h
  split_ifs at h
  exact (Option.some.inj h).symm

theorem readBytes_exact (l1 l2 : List Nat) :
    readBytes (l1.length : Int) (l1 ++ l2) = (l1, l2) := by
  unfold readBytes
  rw [if_neg (not_lt.mpr (Int.natCast_nonneg _))]
  rw [Int.toNat_natCast, List.take_left' rfl, List.drop_left' rfl]

theorem recv_single_value_i_pack {n : Nat} {b : List Nat} (rest : List Nat)
    (h : pack_i32 n = some b) :
    recv_single_value_i (b ++ rest) = some ((n : Int), rest) := by
  have hlt := pack_i32_lt h
  have hb := pack_i32_eq h
  subst hb
  unfold recv_single_value_i recv_formatted_data
  rw [if_neg (by simp only [List.length_append, List.length_cons, List.length_nil]; omega)]
  simp only [Option.map_some']
  rw [show List.take 4 ([n % 256, n / 256 % 256, n / 65536 % 256, n / 16777216 % 256] ++ rest)
      = [n % 256, n / 256 % 256, n / 65536 % 256, n / 16777216 % 256] from List.take_left' rfl,
    show List.drop 4 ([n % 256, n / 256 % 256, n / 65536 % 256, n / 16777216 % 256] ++ rest)
      = rest from List.drop_left' rfl]
  have hu : unpack_i32 [n % 256, n / 256 % 256, n / 65536 % 256, n / 16777216 % 256]
      = (n : Int) := by
    unfold unpack_i32
    simp only [List.headD_cons, List.tail_cons]
    rw [show n % 256 + 256 * (n / 256 % 256) + 65536 * (n / 65536 % 256)
      + 16777216 * (n / 16777216 % 256) = n from by omega]
    rw [if_pos hlt]
  rw [hu]

theorem recv_str_send_str {s : String} {b : List Nat} (rest : List Nat)
    (h : send_str s = some b) :
    recv_str (b ++ rest) = some (s, rest) := by
  unfold send_str at h
  cases hp : pack_i32 (utf8Encode s).length with
  | none => rw [hp] at h; exact absurd h (by simp)
  | some pre =>
    rw [hp] at h
    cases h
    unfold recv_str
    rw [List.append_assoc, recv_single_value_i_pack (utf8Encode s ++ rest) hp,
      Option.some_bind]
    simp only [readBytes_exact, utf8DecodeChars_utf8Encode, Option.some_bind, string_mk_data]

theorem recv_str_n_send_str_each {l : List String} {b : List Nat} (rest : List Nat)
    (h : send_str_each l = some b) :
    recv_str_n l.length (b ++ rest) = some (l, rest) := by
  induction l generalizing b rest with
  | nil =>
    unfold send_str_each at h
    cases h
    rfl
  | cons x xs ih =>
    unfold send_str_each at h
    cases hx : send_str x with
    | none => rw [hx] at h; exact absurd h (by simp)
    | some bx =>
      cases hxs : send_str_each xs with
      | none => rw [hx, hxs] at h; exact absurd h (by simp)
      | some br =>
        rw [hx, hxs] at h
        cases h
        simp only [List.length_cons]
        rw [recv_str_n, List.append_assoc, recv_str_send_str (br ++ rest) hx,
          Option.some_bind]
        simp only [ih rest hxs, Option.some_bind]

theorem recv_str_list_send_str_list {l : List String} {b : List Nat} (rest : List Nat)
    (h : send_str_list l = some b) :
    recv_str_list (b ++ rest) = some (l, rest) := by
  unfold send_str_list at h
  cases hp : pack_i32 l.length with
  | none => rw [hp] at h; exact absurd h (by simp)
  | some pre =>
    cases he : send_str_each l with
    | none => rw [hp, he] at h; exact absurd h (by simp)
    | some body =>
      rw [hp, he] at h
      cases h
      unfold recv_str_list
      rw [List.append_assoc, recv_single_value_i_pack (body ++ rest) hp, Option.some_bind]
      simp only [Int.toNat_natCast]
      exact recv_str_n_send_str_each rest he

theorem recv_single_value_i_length {s : List Nat} {v : Int} {s1 : List Nat}
    (h : recv_single_value_i s = some (v, s1)) : s1.length + 4 = s.length := by
  unfold recv_single_value_i recv_formatted_data at h
  split_ifs at h with hlen
  all_goals
    simp only [Option.map_some', Option.map_none', Option.some.injEq, Prod.mk.injEq,
      reduceCtorEq] at h
  obtain ⟨-, rfl⟩ := h
  simp only [List.length_drop]
  omega

theorem readBytes_snd_length (n : Int) (s : List Nat) :
    (readBytes n s).2.length ≤ s.length := by
  unfold readBytes
  split_ifs
  · exact Nat.zero_le _
  · show (s.drop n.toNat).length ≤ s.length
    simp only [List.length_drop]
    omega

theorem recv_str_length {s : List Nat} {v : String} {s1 : List Nat}
    (h : recv_str s = some (v, s1)) : s1.length + 4 ≤ s.length := by
  unfold recv_str at h
  cases hi : recv_single_value_i s with
  | none => rw [hi] at h; exact absurd h (by simp)
  | some q =>
    rw [hi, Option.some_bind] at h
    obtain ⟨len, s0⟩ := q
    have hq := recv_single_value_i_length hi
    cases hd : utf8DecodeChars (readBytes len s0).1 with
    | none => rw [hd] at h; exact absurd h (by simp)
    | some cs =>
      rw [hd, Option.some_bind] at h
      have h2 : s1 = (readBytes len s0).2 := by
        have := Option.some.inj h
        exact (congrArg Prod.snd this).symm
      have h3 := readBytes_snd_length len s0
      rw [h2]
      omega

theorem recv_str_n_length {n : Nat} {s : List Nat} {l : List String} {s1 : List Nat}
    (h : recv_str_n n s = some (l, s1)) : s1.length ≤ s.length := by
  induction n generalizing s l s1 with
  | zero =>
    unfold recv_str_n at h
    obtain ⟨-, rfl⟩ : l = [] ∧ s1 = s := by
      have := Option.some.inj h
      exact ⟨(congrArg Prod.fst this).symm, (congrArg Prod.snd this).symm⟩
    exact le_refl _
  | succ n ih =>
    unfold recv_str_n at h
    cases h1 : recv_str s with
    | none => rw [h1] at h; exact absurd h (by simp)
    | some p =>
      rw [h1, Option.some_bind] at h
      obtain ⟨x, sx⟩ := p
      cases h2 : recv_str_n n sx with
      | none => rw [h2] at h; exact absurd h (by simp)
      | some q =>
        rw [h2, Option.some_bind] at h
        obtain ⟨xs, sy⟩ := q
        have hx := recv_str_length h1
        have hxs := ih h2
        have hss : s1 = sy := by
          have := Option.some.inj h
          exact (congrArg Prod.snd this).symm
        subst hss
        omega

theorem recv_str_list_length {s : List Nat} {l : List String} {s1 : List Nat}
    (h : recv_str_list s = some (l, s1)) : s1.length + 4 ≤ s.length := by
  unfold recv_str_list at h
  cases hi : recv_single_value_i s with
  | none => rw [hi] at h; exact absurd h (by simp)
  | some q =>
    rw [hi, Option.some_bind] at h
    obtain ⟨len, s0⟩ := q
    have hq := recv_single_value_i_length hi
    have hn : s1.length ≤ s0.length := recv_str_n_length h
    omega

/-! ### TCP server, modelling class ServerTCP (lines 180-298)

Writer handles are modelled as numeric identifiers.  The observable
effects of one connection's handler are collected in order: each write
call sequence to a client, each writer close, and - when an exception
escapes the handler - a final crash marker (asyncio reports the exception
and the handler stops there; nothing after it runs). -/

/-- A (timestamp, username, text) message triple as stored in
RECENT_MESSAGES by update_history. -/
abbrev Msg := String × String × String

/-- The ServerTCP instance state (__init__, lines 186-193). -/
structure ServerState where
  WRITERS : List Nat
  USERNAMES_LIST : List (String × String)
  RECENT_MESSAGES : List Msg
deriving DecidableEq, Repr

/-- get_history (lines 195-199). -/
def get_history (st : ServerState) : List Msg := st.RECENT_MESSAGES

/-- update_history (lines 201-208): if the buffer already holds 10 or
more entries pop the oldest (index 0), then append the new triple. -/
def update_history (st : ServerState) (time username message : String) : ServerState :=
  { st with RECENT_MESSAGES :=
      (if st.RECENT_MESSAGES.length ≥ 10 then st.RECENT_MESSAGES.tail
       else st.RECENT_MESSAGES) ++ [(time, username, message)] }

/-- One observable effect of a connection handler: a write sequence to a
client writer (the boolean accept flag; the 371 history reply of
send_history, lines 210-219; the 372 broadcast of send_new_message,
lines 221-232), a writer close, or an unhandled exception escaping the
handler. -/
inductive Out where
  | sendBool (w : Nat) (b : Bool)
  | sendHistory (w : Nat) (history : List Msg)
  | sendBroadcast (w : Nat) (message_info : List String)
  | close (w : Nat)
  | crash
deriving DecidableEq, Repr

/-- send_new_message (lines 221-232): writes the 372 broadcast with the
unchanged message_info to every writer currently in WRITERS. -/
def send_new_message (st : ServerState) (message_info : List String) : List Out :=
  st.WRITERS.map (fun w => Out.sendBroadcast w message_info)

/-- Removal of the first occurrence of x from a list. -/
def py_remove {α : Type} [DecidableEq α] : List α → α → List α
  | [], _ => []
  | a :: as, x => if a = x then as else a :: py_remove as x

/-- Python list.remove(x): removes the first occurrence of x, raises
ValueError (none) when x is absent. -/
def list_remove {α : Type} [DecidableEq α] (l : List α) (x : α) : Option (List α) :=
  if x ∈ l then some (py_remove l x) else none

/-- The cleanup after the while loop (lines 295-298): remove user_info
from USERNAMES_LIST, remove the writer from WRITERS, close the writer.
user_info is none while no join has succeeded (Python initialises it to
the empty tuple, line 253), and USERNAMES_LIST.remove then raises
ValueError, so the writer is neither removed nor closed. -/
def conn_cleanup (st : ServerState) (w : Nat) (user_info : Option (String × String)) :
    ServerState × List Out :=
  match user_info with
  | none => (st, [Out.crash])
  | some u =>
    match list_remove st.USERNAMES_LIST u with
    | none => (st, [Out.crash])
    | some us =>
      match list_remove st.WRITERS w with
      | none => ({ st with USERNAMES_LIST := us }, [Out.crash])
      | some ws =>
        ({ WRITERS := ws, USERNAMES_LIST := us, RECENT_MESSAGES := st.RECENT_MESSAGES },
          [Out.close w])

/-- The while-True request loop of server_handle_request (lines 254-298).
s is the byte stream the client sends before closing.  Tag 471: read the
username; on a collision with any USERNAMES_LIST entry send False, remove
the writer, close it and return; otherwise send True, append the new
(address, username) record, send the history, and loop.  Tag 472: read
the message list (an exception breaks to cleanup), broadcast it to every
writer, then update the history with its first three entries (fewer than
three raises IndexError after the fan-out) and loop.  Any other tag falls
through both if statements and the loop just continues.  A failed tag
read (struct.error) breaks to cleanup. -/
def server_loop (st : ServerState) (w : Nat) (addr : String)
    (user_info : Option (String × String)) (s : List Nat) : ServerState × List Out :=
  match h : recv_single_value_i s with
  | none => conn_cleanup st w user_info
  | some (tag, s1) =>
    if tag = 471 then
      match h2 : recv_str s1 with
      | none => (st, [Out.crash])
      | some (client_username, s2) =>
        if st.USERNAMES_LIST.any (fun cid => client_username == cid.2) then
          match list_remove st.WRITERS w with
          | none => (st, [Out.sendBool w false, Out.crash])
          | some ws => ({ st with WRITERS := ws }, [Out.sendBool w false, Out.close w])
        else
          let new_user := (addr, client_username)
          let st2 := { st with USERNAMES_LIST := st.USERNAMES_LIST ++ [new_user] }
          let r := server_loop st2 w addr (some new_user) s2
          (r.1, Out.sendBool w true :: Out.sendHistory w (get_history st2) :: r.2)
    else if tag = 472 then
      match h3 : recv_str_list s1 with
      | none => conn_cleanup st w user_info
      | some (message_info, s2) =>
        match message_info with
        | t :: u :: m :: _ =>
          let outs := send_new_message st message_info
          let r := server_loop (update_history st t u m) w addr user_info s2
          (r.1, outs ++ r.2)
        | _ => (st, send_new_message st message_info ++ [Out.crash])
    else
      server_loop st w addr user_info s1
termination_by s.length
decreasing_by
  · have ha := recv_single_value_i_length h
    have hb := recv_str_length h2
    omega
  · have ha := recv_single_value_i_length h
    have hb := recv_str_list_length h3
    omega
  · have ha := recv_single_value_i_length h
    omega

/-- server_handle_request (lines 246-298): on arrival the writer is
appended to WRITERS (line 252) and user_info initialised to the empty
tuple (line 253), then the request loop runs. -/
def server_handle_request (st : ServerState) (w : Nat) (addr : String) (s : List Nat) :
    ServerState × List Out :=
  server_loop { st with WRITERS := st.WRITERS ++ [w] } w addr none s

/-! Step lemmas: one unfolding of the request loop per branch. -/

theorem server_loop_eof (st : ServerState) (w : Nat) (addr : String)
    (ui : Option (String × String)) {s : List Nat}
    (h : recv_single_value_i s = none) :
    server_loop st w addr ui s = conn_cleanup st w ui := by
  rw [server_loop.eq_def]
  split
  · rfl
  · next tag s1 heq => rw [h] at heq; exact absurd heq (by simp)

theorem server_loop_unknown (st : ServerState) (w : Nat) (addr : String)
    (ui : Option (String × String)) {s : List Nat} {tag : Int} {s1 : List Nat}
    (h : recv_single_value_i s = some (tag, s1)) (h471 : tag ≠ 471) (h472 : tag ≠ 472) :
    server_loop st w addr ui s = server_loop st w addr ui s1 := by
  rw [server_loop.eq_def]
  split
  · next heq => rw [h] at heq; exact absurd heq (by simp)
  · next tag2 s12 heq =>
    rw [h] at heq
    injection heq with hp
    injection hp with ha hb
    subst ha
    subst hb
    rw [if_neg h471, if_neg h472]

theorem server_loop_join_dup (st : ServerState) (w : Nat) (addr : String)
    (ui : Option (String × String)) {s s1 : List Nat} {uname : String} {s2 : List Nat}
    (h : recv_single_value_i s = some (471, s1))
    (h2 : recv_str s1 = some (uname, s2))
    (hdup : st.USERNAMES_LIST.any (fun cid => uname == cid.2) = true)
    (hw : w ∈ st.WRITERS) :
    server_loop st w addr ui s =
      ({ st with WRITERS := py_remove st.WRITERS w }, [Out.sendBool w false, Out.close w]) := by
  rw [server_loop.eq_def]
  split
  · next heq => rw [h] at heq; exact absurd heq (by simp)
  · next tag2 s12 heq =>
    rw [h] at heq
    injection heq with hp
    injection hp with ha hb
    subst ha
    subst hb
    rw [if_pos rfl]
    split
    · next heq2 => rw [h2] at heq2; exact absurd heq2 (by simp)
    · next un2 s22 heq2 =>
      rw [h2] at heq2
      injection heq2 with hp2
      injection hp2 with hc hd
      subst hc
      subst hd
      rw [if_pos hdup]
      rw [show list_remove st.WRITERS w = some (py_remove st.WRITERS w) from by
        unfold list_remove; rw [if_pos hw]]

theorem server_loop_join_ok (st : ServerState) (w : Nat) (addr : String)
    (ui : Option (String × String)) {s s1 : List Nat} {uname : String} {s2 : List Nat}
    (h : recv_single_value_i s = some (471, s1))
    (h2 : recv_str s1 = some (uname, s2))
    (hnodup : st.USERNAMES_LIST.any (fun cid => uname == cid.2) = false) :
    server_loop st w addr ui s =
      ((server_loop { st with USERNAMES_LIST := st.USERNAMES_LIST ++ [(addr, uname)] }
          w addr (some (addr, uname)) s2).1,
        Out.sendBool w true :: Out.sendHistory w st.RECENT_MESSAGES ::
          (server_loop { st with USERNAMES_LIST := st.USERNAMES_LIST ++ [(addr, uname)] }
            w addr (some (addr, uname)) s2).2) := by
  rw [server_loop.eq_def]
  split
  · next heq => rw [h] at heq; exact absurd heq (by simp)
  · next tag2 s12 heq =>
    rw [h] at heq
    injection heq with hp
    injection hp with ha hb
    subst ha
    subst hb
    rw [if_pos rfl]
    split
    · next heq2 => rw [h2] at heq2; exact absurd heq2 (by simp)
    · next un2 s22 heq2 =>
      rw [h2] at heq2
      injection heq2 with hp2
      injection hp2 with hc hd
      subst hc
      subst hd
      rw [if_neg (by simp [hnodup])]
      rfl

theorem server_loop_post (st : ServerState) (w : Nat) (addr : String)
    (ui : Option (String × String)) {s s1 : List Nat} {t u m : String}
    {tail : List String} {s2 : List Nat}
    (h : recv_single_value_i s = some (472, s1))
    (h3 : recv_str_list s1 = some (t :: u :: m :: tail, s2)) :
    server_loop st w addr ui s =
      ((server_loop (update_history st t u m) w addr ui s2).1,
        send_new_message st (t :: u :: m :: tail) ++
          (server_loop (update_history st t u m) w addr ui s2).2) := by
  rw [server_loop.eq_def]
  split
  · next heq => rw [h] at heq; exact absurd heq (by simp)
  · next tag2 s12 heq =>
    rw [h] at heq
    injection heq with hp
    injection hp with ha hb
    subst ha
    subst hb
    rw [if_neg (by decide), if_pos rfl]
    split
    · next heq3 => rw [h3] at heq3; exact absurd heq3 (by simp)
    · next mi s22 heq3 =>
      rw [h3] at heq3
      injection heq3 with hp3
      injection hp3 with hc hd
      subst hc
      subst hd
      rfl

theorem server_loop_post_short (st : ServerState) (w : Nat) (addr : String)
    (ui : Option (String × String)) {s s1 : List Nat} {mi : List String} {s2 : List Nat}
    (h : recv_single_value_i s = some (472, s1))
    (h3 : recv_str_list s1 = some (mi, s2))
    (hshort : mi.length < 3) :
    server_loop st w addr ui s = (st, send_new_message st mi ++ [Out.crash]) := by
  rw [server_loop.eq_def]
  split
  · next heq => rw [h] at heq; exact absurd heq (by simp)
  · next tag2 s12 heq =>
    rw [h] at heq
    injection heq with hp
    injection hp with ha hb
    subst ha
    subst hb
    rw [if_neg (by decide), if_pos rfl]
    split
    · next heq3 => rw [h3] at heq3; exact absurd heq3 (by simp)
    · next mi2 s22 heq3 =>
      rw [h3] at heq3
      injection heq3 with hp3
      injection hp3 with hc hd
      subst hc
      subst hd
      match mi, hshort with
      | [], _ => rfl
      | [a], _ => rfl
      | [a, b], _ => rfl
      | a :: b :: c :: tl, hs => exact absurd hs (by simp)

theorem server_loop_eof_cleanup_joined (st : ServerState) (w : Nat) (addr : String)
    {u : String × String} {s : List Nat}
    (h : recv_single_value_i s = none)
    (hu : u ∈ st.USERNAMES_LIST) (hw : w ∈ st.WRITERS) :
    server_loop st w addr (some u) s =
      ({ WRITERS := py_remove st.WRITERS w, USERNAMES_LIST := py_remove st.USERNAMES_LIST u,
         RECENT_MESSAGES := st.RECENT_MESSAGES }, [Out.close w]) := by
  rw [server_loop_eof st w addr (some u) h]
  unfold conn_cleanup list_remove
  simp only [if_pos hu, if_pos hw]

/-! ### UDP peer-to-peer chat, modelling udp_p2p_chat.py (class
ChatProtocol, lines 21-113) -/

/-- The payload of a pickled envelope: pack_message (lines 39-41) puts a
string there for kinds 370/471/472 and the RECENT_MESSAGES list for kind
371. -/
inductive Payload where
  | str (s : String)
  | list (l : List String)
deriving DecidableEq, Repr

/-- A pickled envelope (pack_message/unpack_message, lines 39-45). -/
structure Envelope where
  protocol_num : Int
  username : String
  message : Payload
deriving DecidableEq, Repr

/-- Mutable state of a ChatProtocol node (class attributes and __init__,
lines 21-32). -/
structure NodeState where
  USERNAME : String
  NEW_USER : Bool
  RECENT_MESSAGES : List String
deriving DecidableEq, Repr

/-- An observable effect of the datagram handler: a transport.sendto, a
printed line, or a transport close. -/
inductive UdpOut where
  | sendto (e : Envelope) (destIp : String)
  | close
  | print (line : String)
deriving DecidableEq, Repr

/-- format_message (lines 34-37); current_time is the datetime.now()
value, passed in explicitly. -/
def format_message (current_time username message : String) : String :=
  "> " ++ current_time ++ " " ++ username ++ ": " ++ message

/-- Python iteration over the adopted 371 payload (lines 97-99):
iterating a list yields its entries; iterating a string yields its
characters, each printed on its own line. -/
def payload_entries : Payload → List String
  | Payload.list l => l
  | Payload.str s => s.data.map (fun c => String.mk [c])

/-- The '%s' interpolation of the 472 payload (line 105).  The programs
only broadcast 472 envelopes with string payloads (get_messages,
line 78); a non-string payload is outside the protocol and modelled as
the empty string. -/
def payload_str : Payload → String
  | Payload.str s => s
  | Payload.list _ => ""

/-- send_history (lines 47-54): one unicast sendto to (addr[0], PORT)
carrying 371 with the full local history if the announced username
differs from our own, or 370 with empty payload if it collides. -/
def send_history (st : NodeState) (username : String) (addrIp : String) : List UdpOut :=
  if username ≠ st.USERNAME then
    [UdpOut.sendto ⟨371, st.USERNAME, Payload.list st.RECENT_MESSAGES⟩ addrIp]
  else
    [UdpOut.sendto ⟨370, "", Payload.str ""⟩ addrIp]

/-- datagram_received (lines 85-109).  selfIp is the get_ip() value
(line 102) and now the datetime.now() value used by format_message in
the 472 branch.  The four protocol-number tests are separate Python if
statements, but at most one can hold, so the chain below is equivalent.
370: close the transport.  371: adopt the payload wholesale and print
every adopted entry, but only while the NEW_USER latch is still set,
which the adoption clears.  471: reply via send_history unless the
sender's address is our own.  472: format the message, evict the oldest
history entry if the buffer already holds 10, append, print. -/
def datagram_received (st : NodeState) (selfIp now : String) (env : Envelope)
    (addrIp : String) : NodeState × List UdpOut :=
  if env.protocol_num = 370 then (st, [UdpOut.close])
  else if env.protocol_num = 371 then
    if st.NEW_USER = true then
      ({ st with RECENT_MESSAGES := payload_entries env.message, NEW_USER := false },
        (payload_entries env.message).map UdpOut.print)
    else (st, [])
  else if env.protocol_num = 471 then
    if addrIp ≠ selfIp then (st, send_history st env.username addrIp)
    else (st, [])
  else if env.protocol_num = 472 then
    ({ st with RECENT_MESSAGES :=
        (if st.RECENT_MESSAGES.length ≥ 10 then st.RECENT_MESSAGES.tail
         else st.RECENT_MESSAGES)
          ++ [format_message now env.username (payload_str env.message)] },
      [UdpOut.print (format_message now env.username (payload_str env.message))])
  else (st, [])

/-- Sequential handling of a list of datagrams (the event loop delivers
them one at a time); each entry is (now, envelope, sender address). -/
def run_datagrams (selfIp : String) : NodeState → List (String × Envelope × String) →
    NodeState × List UdpOut
  | st, [] => (st, [])
  | st, d :: ds =>
    ((run_datagrams selfIp (datagram_received st selfIp d.1 d.2.1 d.2.2).1 ds).1,
      (datagram_received st selfIp d.1 d.2.1 d.2.2).2 ++
        (run_datagrams selfIp (datagram_received st selfIp d.1 d.2.1 d.2.2).1 ds).2)

/-! ### TCP client, modelling class ClientTCP (lines 76-177) -/

/-- The three fields of a stored message triple, in the order
send_str_list iterates them. -/
def msg_fields (m : Msg) : List String := [m.1, m.2.1, m.2.2]

/-- The per-message loop of the server's send_history (lines 217-219). -/
def send_msgs_bytes : List Msg → Option (List Nat)
  | [] => some []
  | m :: ms =>
    match send_str_list (msg_fields m), send_msgs_bytes ms with
    | some b, some r => some (b ++ r)
    | _, _ => none

/-- The byte stream written by the server's send_history (lines 210-219):
tag 371, the history length, then each triple via send_str_list. -/
def send_history_bytes (history : List Msg) : Option (List Nat) :=
  match pack_i32 371, pack_i32 history.length, send_msgs_bytes history with
  | some t, some c, some b => some (t ++ c ++ b)
  | _, _, _ => none

/-- The history-replay loop of start_chatting (lines 112-119): receive
past_messages_num string lists, printing '%s %s: %s' of entries 0, 1 and
2 of each.  A receive failure or an IndexError on a short list is an
uncaught exception (none). -/
def recv_history : Nat → List Nat → Option (List String × List Nat)
  | 0, s => some ([], s)
  | n + 1, s =>
    match recv_str_list s with
    | none => none
    | some (pm, s1) =>
      match pm with
      | t :: u :: m :: _ =>
        match recv_history n s1 with
        | none => none
        | some (ls, s2) => some ((t ++ " " ++ u ++ ": " ++ m) :: ls, s2)
      | _ => none

/-- What start_chatting printed during history replay and what it
returned (Python None modelled as none). -/
structure JoinResult where
  printed : List String
  ret : Option String
deriving DecidableEq, Repr

/-- start_chatting (lines 82-120) on the byte stream s the server sends.
The 471 tag and the username are written first (struct.pack failures are
uncaught).  The accept flag is read inside try/except: any failure there
prints a local message, closes the writer and returns None; a False flag
likewise closes and returns None.  Then the next tag is read (a failure
here is an uncaught exception); if it is 371 the history is replayed.
Finally the username the user typed is returned - whatever it was. -/
def start_chatting (username : String) (s : List Nat) : Option JoinResult :=
  match pack_i32 471, send_str username with
  | some _, some _ =>
    (match recv_single_value_b s with
     | none => some ⟨[], none⟩
     | some (status, s1) =>
       if status = false then some ⟨[], none⟩
       else
         match recv_single_value_i s1 with
         | none => none
         | some (response, s2) =>
           if response = 371 then
             match recv_single_value_i s2 with
             | none => none
             | some (num, s3) =>
               match recv_history num.toNat s3 with
               | none => none
               | some (printed, _) => some ⟨printed, some username⟩
           else some ⟨[], some username⟩)
  | _, _ => none

/-- The truthiness test in connect_to_server (lines 158-171): the two
chat loops (send_message and recv_new_message) are started only when
start_chatting neither raised nor returned a falsy value - and Python
treats both None and the empty string as falsy. -/
def connect_to_server_chats (username : String) (s : List Nat) : Option Bool :=
  (start_chatting username s).map (fun r =>
    match r.ret with
    | none => false
    | some u => !(u == ""))

/-! ### The FIFO-10 buffer discipline shared by both history buffers -/

/-- One append with capacity-10 eviction, the common shape of
update_history and of the 472 branch of datagram_received. -/
def fifo_append {α : Type} (buf : List α) (x : α) : List α :=
  (if buf.length ≥ 10 then buf.tail else buf) ++ [x]

theorem fifo_append_foldl {α : Type} (l : List α) :
    l.foldl fifo_append [] = l.drop (l.length - 10) := by
  induction l using List.reverseRecOn with
  | nil => rfl
  | append_singleton l a ih =>
    rw [List.foldl_append, List.foldl_cons, List.foldl_nil, ih]
    have hlen : (l ++ [a]).length = l.length + 1 := by
      simp only [List.length_append, List.length_cons, List.length_nil]
    unfold fifo_append
    by_cases h : l.length < 10
    · have h1 : l.length - 10 = 0 := by omega
      have h2 : (l ++ [a]).length - 10 = 0 := by omega
      rw [h1, List.drop_zero, if_neg (show ¬(l.length ≥ 10) from by omega), h2,
        List.drop_zero]
    · have h1 : (List.drop (l.length - 10) l).length = 10 := by
        simp only [List.length_drop]
        omega
      have h2 : (l ++ [a]).length - 10 = l.length - 10 + 1 := by omega
      rw [if_pos (show (List.drop (l.length - 10) l).length ≥ 10 from by omega),
        List.tail_drop, h2, List.drop_append_of_le_length (by omega)]

/-! ### Supporting lemmas for the claims -/

theorem update_history_recent (st : ServerState) (t u m : String) :
    (update_history st t u m).RECENT_MESSAGES = fifo_append st.RECENT_MESSAGES (t, u, m) := rfl

theorem update_history_writers (st : ServerState) (t u m : String) :
    (update_history st t u m).WRITERS = st.WRITERS := rfl

theorem update_history_usernames (st : ServerState) (t u m : String) :
    (update_history st t u m).USERNAMES_LIST = st.USERNAMES_LIST := rfl

/-- The shared history after a fresh server has processed a sequence of
posted triples through update_history. -/
def server_history_after (ms : List Msg) : List Msg :=
  (ms.foldl (fun st m => update_history st m.1 m.2.1 m.2.2)
    { WRITERS := [], USERNAMES_LIST := [], RECENT_MESSAGES := [] }).RECENT_MESSAGES

theorem server_history_after_eq (ms : List Msg) :
    server_history_after ms = ms.drop (ms.length - 10) := by
  have key : ∀ (ms : List Msg) (st : ServerState),
      (ms.foldl (fun st m => update_history st m.1 m.2.1 m.2.2) st).RECENT_MESSAGES
        = ms.foldl fifo_append st.RECENT_MESSAGES := by
    intro ms
    induction ms with
    | nil => intro st; rfl
    | cons m ms ih =>
      intro st
      rw [List.foldl_cons, List.foldl_cons, ih]
      rfl
  rw [server_history_after, key, fifo_append_foldl]

theorem datagram_received_472 (st : NodeState) (selfIp now : String) (env : Envelope)
    (addrIp : String) (h : env.protocol_num = 472) :
    datagram_received st selfIp now env addrIp =
      ({ st with RECENT_MESSAGES := (fifo_append st.RECENT_MESSAGES
          (format_message now env.username (payload_str env.message))) },
        [UdpOut.print (format_message now env.username (payload_str env.message))]) := by
  unfold datagram_received
  rw [h]
  rw [if_neg (show ¬((472 : Int) = 370) from by decide),
    if_neg (show ¬((472 : Int) = 371) from by decide),
    if_neg (show ¬((472 : Int) = 471) from by decide),
    if_pos (show (472 : Int) = 472 from rfl)]
  rfl

theorem run_datagrams_472_state (selfIp : String) (ds : List (String × Envelope × String)) :
    ∀ st : NodeState, (∀ d ∈ ds, d.2.1.protocol_num = 472) →
      (run_datagrams selfIp st ds).1 =
        { st with RECENT_MESSAGES :=
            (ds.map (fun d => format_message d.1 d.2.1.username
              (payload_str d.2.1.message))).foldl fifo_append st.RECENT_MESSAGES } := by
  induction ds with
  | nil => intro st h; rfl
  | cons d ds ih =>
    intro st h
    rw [run_datagrams]
    rw [datagram_received_472 st selfIp d.1 d.2.1 d.2.2 (h d (by simp))]
    rw [ih _ (fun x hx => h x (by simp [hx]))]
    rw [List.map_cons, List.foldl_cons]

theorem py_remove_append_self {α : Type} [DecidableEq α] {l : List α} {x : α}
    (h : x ∉ l) : py_remove (l ++ [x]) x = l := by
  induction l with
  | nil => simp [py_remove]
  | cons a as ih =>
    have ha : a ≠ x := by
      intro hax
      exact h (by rw [hax]; exact List.mem_cons_self x as)
    rw [List.cons_append, py_remove, if_neg ha,
      ih (fun hx => h (List.mem_cons_of_mem a hx))]

theorem py_remove_sublist {α : Type} [DecidableEq α] (l : List α) (x : α) :
    (py_remove l x).Sublist l := by
  induction l with
  | nil => simp [py_remove]
  | cons a as ih =>
    rw [py_remove]
    split_ifs
    · exact (List.sublist_cons_self a as)
    · exact List.Sublist.cons₂ a ih

theorem mem_py_remove_of_ne {α : Type} [DecidableEq α] {l : List α} {x y : α}
    (hy : y ∈ l) (hne : y ≠ x) : y ∈ py_remove l x := by
  induction l with
  | nil => exact absurd hy (by simp)
  | cons a as ih =>
    rw [py_remove]
    split_ifs with hax
    · rcases List.mem_cons.mp hy with h1 | h2
      · exact absurd (h1.trans hax) hne
      · exact h2
    · rcases List.mem_cons.mp hy with h1 | h2
      · exact h1 ▸ List.mem_cons_self a (py_remove as x)
      · exact List.mem_cons_of_mem a (ih h2)

/-- No two registry records share a username. -/
def UsernamesDistinct (st : ServerState) : Prop :=
  st.USERNAMES_LIST.Pairwise (fun a b => a.2 ≠ b.2)

theorem conn_cleanup_distinct (st : ServerState) (w : Nat)
    (ui : Option (String × String)) (h : UsernamesDistinct st) :
    UsernamesDistinct (conn_cleanup st w ui).1 := by
  cases ui with
  | none => exact h
  | some u =>
    unfold conn_cleanup list_remove
    by_cases h1 : u ∈ st.USERNAMES_LIST
    · by_cases h2 : w ∈ st.WRITERS
      · simp only [if_pos h1, if_pos h2]
        exact h.sublist (py_remove_sublist _ _)
      · simp only [if_pos h1, if_neg h2]
        exact h.sublist (py_remove_sublist _ _)
    · simp only [if_neg h1]
      exact h

theorem server_loop_join_dup_missing (st : ServerState) (w : Nat) (addr : String)
    (ui : Option (String × String)) {s s1 : List Nat} {uname : String} {s2 : List Nat}
    (h : recv_single_value_i s = some (471, s1))
    (h2 : recv_str s1 = some (uname, s2))
    (hdup : st.USERNAMES_LIST.any (fun cid => uname == cid.2) = true)
    (hw : w ∉ st.WRITERS) :
    server_loop st w addr ui s = (st, [Out.sendBool w false, Out.crash]) := by
  rw [server_loop.eq_def]
  split
  · next heq => rw [h] at heq; exact absurd heq (by simp)
  · next tag2 s12 heq =>
    rw [h] at heq
    injection heq with hp
    injection hp with ha hb
    subst ha
    subst hb
    rw [if_pos rfl]
    split
    · next heq2 => rw [h2] at heq2; exact absurd heq2 (by simp)
    · next un2 s22 heq2 =>
      rw [h2] at heq2
      injection heq2 with hp2
      injection hp2 with hc hd
      subst hc
      subst hd
      rw [if_pos hdup]
      rw [show list_remove st.WRITERS w = none from by
        unfold list_remove; rw [if_neg hw]]

theorem server_loop_join_recvfail (st : ServerState) (w : Nat) (addr : String)
    (ui : Option (String × String)) {s s1 : List Nat}
    (h : recv_single_value_i s = some (471, s1))
    (h2 : recv_str s1 = none) :
    server_loop st w addr ui s = (st, [Out.crash]) := by
  rw [server_loop.eq_def]
  split
  · next heq => rw [h] at heq; exact absurd heq (by simp)
  · next tag2 s12 heq =>
    rw [h] at heq
    injection heq with hp
    injection hp with ha hb
    subst ha
    subst hb
    rw [if_pos rfl]
    split
    · rfl
    · next un2 s22 heq2 => rw [h2] at heq2; exact absurd heq2 (by simp)

theorem server_loop_post_recvfail (st : ServerState) (w : Nat) (addr : String)
    (ui : Option (String × String)) {s s1 : List Nat}
    (h : recv_single_value_i s = some (472, s1))
    (h3 : recv_str_list s1 = none) :
    server_loop st w addr ui s = conn_cleanup st w ui := by
  rw [server_loop.eq_def]
  split
  · next heq => simp [h] at heq
  · next tag2 s12 heq =>
    rw [h] at heq
    injection heq with hp
    injection hp with ha hb
    subst ha
    subst hb
    rw [if_neg (by decide), if_pos rfl]
    split
    · rfl
    · next mi s22 heq3 => simp [h3] at heq3

theorem server_loop_distinct :
    ∀ (n : Nat) (st : ServerState) (w : Nat) (addr : String)
      (ui : Option (String × String)) (s : List Nat), s.length ≤ n →
      UsernamesDistinct st → UsernamesDistinct (server_loop st w addr ui s).1 := by
  intro n
  induction n with
  | zero =>
    intro st w addr ui s hs h
    have hnone : recv_single_value_i s = none := by
      unfold recv_single_value_i recv_formatted_data
      rw [if_pos (by omega)]
      rfl
    rw [server_loop_eof st w addr ui hnone]
    exact conn_cleanup_distinct st w ui h
  | succ n ih =>
    intro st w addr ui s hs h
    cases hr : recv_single_value_i s with
    | none =>
      rw [server_loop_eof st w addr ui hr]
      exact conn_cleanup_distinct st w ui h
    | some p =>
      obtain ⟨tag, s1⟩ := p
      have hlen := recv_single_value_i_length hr
      by_cases h471 : tag = 471
      · subst h471
        cases h2 : recv_str s1 with
        | none =>
          rw [server_loop_join_recvfail st w addr ui hr h2]
          exact h
        | some q =>
          obtain ⟨uname, s2⟩ := q
          have hlen2 := recv_str_length h2
          by_cases hdup : st.USERNAMES_LIST.any (fun cid => uname == cid.2) = true
          · by_cases hw : w ∈ st.WRITERS
            · rw [server_loop_join_dup st w addr ui hr h2 hdup hw]
              exact h
            · rw [server_loop_join_dup_missing st w addr ui hr h2 hdup hw]
              exact h
          · have hdup2 : st.USERNAMES_LIST.any (fun cid => uname == cid.2) = false := by
              revert hdup
              cases st.USERNAMES_LIST.any (fun cid => uname == cid.2) <;> simp
            rw [server_loop_join_ok st w addr ui hr h2 hdup2]
            apply ih _ w addr _ s2 (by omega)
            unfold UsernamesDistinct
            rw [List.pairwise_append]
            refine ⟨h, List.pairwise_singleton _ _, ?_⟩
            intro a ha b hb
            have hb2 : b = (addr, uname) := by
              simp only [List.mem_singleton] at hb
              exact hb
            subst hb2
            have hx := List.any_eq_false.mp hdup2 a ha
            intro hEq
            rw [hEq] at hx
            exact hx (by simp)
      · by_cases h472 : tag = 472
        · subst h472
          cases h3 : recv_str_list s1 with
          | none =>
            rw [server_loop_post_recvfail st w addr ui hr h3]
            exact conn_cleanup_distinct st w ui h
          | some q =>
            obtain ⟨mi, s2⟩ := q
            have hlen3 := recv_str_list_length h3
            rcases mi with _ | ⟨t, _ | ⟨u, _ | ⟨m, tl⟩⟩⟩
            · rw [server_loop_post_short st w addr ui hr h3 (by simp)]
              exact h
            · rw [server_loop_post_short st w addr ui hr h3 (by simp)]
              exact h
            · rw [server_loop_post_short st w addr ui hr h3 (by simp)]
              exact h
            · rw [server_loop_post st w addr ui hr h3]
              exact ih _ w addr ui s2 (by omega) h
        · rw [server_loop_unknown st w addr ui hr h471 h472]
          exact ih st w addr ui s1 (by omega) h

theorem recv_history_msgs {hs : List Msg} {b : List Nat} (rest : List Nat)
    (h : send_msgs_bytes hs = some b) :
    recv_history hs.length (b ++ rest)
      = some (hs.map (fun m => m.1 ++ " " ++ m.2.1 ++ ": " ++ m.2.2), rest) := by
  induction hs generalizing b rest with
  | nil =>
    unfold send_msgs_bytes at h
    cases h
    rfl
  | cons m ms ih =>
    unfold send_msgs_bytes at h
    cases hx : send_str_list (msg_fields m) with
    | none => rw [hx] at h; exact absurd h (by simp)
    | some bx =>
      cases hxs : send_msgs_bytes ms with
      | none => rw [hx, hxs] at h; exact absurd h (by simp)
      | some br =>
        rw [hx, hxs] at h
        cases h
        simp only [List.length_cons]
        rw [recv_history, List.append_assoc,
          recv_str_list_send_str_list (br ++ rest) hx]
        simp only [msg_fields, ih rest hxs, List.map_cons]

theorem datagram_received_371_adopt (st : NodeState) (selfIp now : String)
    (env : Envelope) (addrIp : String) (h : env.protocol_num = 371)
    (hnew : st.NEW_USER = true) :
    datagram_received st selfIp now env addrIp =
      ({ st with RECENT_MESSAGES := payload_entries env.message, NEW_USER := false },
        (payload_entries env.message).map UdpOut.print) := by
  unfold datagram_received
  rw [h]
  rw [if_neg (show ¬((371 : Int) = 370) from by decide),
    if_pos (show (371 : Int) = 371 from rfl), if_pos hnew]

theorem datagram_received_371_noop (st : NodeState) (selfIp now : String)
    (env : Envelope) (addrIp : String) (h : env.protocol_num = 371)
    (hnew : st.NEW_USER = false) :
    datagram_received st selfIp now env addrIp = (st, []) := by
  unfold datagram_received
  rw [h]
  rw [if_neg (show ¬((371 : Int) = 370) from by decide),
    if_pos (show (371 : Int) = 371 from rfl), if_neg (by simp [hnew])]

theorem run_datagrams_371_noop (selfIp : String)
    (es : List (String × Envelope × String)) :
    ∀ st : NodeState, st.NEW_USER = false → (∀ d ∈ es, d.2.1.protocol_num = 371) →
      run_datagrams selfIp st es = (st, []) := by
  induction es with
  | nil => intro st _ _; rfl
  | cons e es ih =>
    intro st hnew h
    rw [run_datagrams]
    rw [datagram_received_371_noop st selfIp e.1 e.2.1 e.2.2 (h e (by simp)) hnew]
    rw [ih st hnew (fun x hx => h x (by simp [hx]))]
    rfl

/-! ### The claims -/

/-- C1: for every sequence of N messages appended to a history buffer -
the TCP server's RECENT_MESSAGES via update_history, and the UDP node's
RECENT_MESSAGES in the ChatBroadcast (472) branch of datagram_received -
the buffer's length equals min(N,10) and it contains exactly the last
min(N,10) appended entries in arrival order (the drop of all but the last
10), the oldest entry being popped strictly before each append once the
buffer is at capacity. -/
theorem c1_history_bound :
    (∀ ms : List Msg,
      server_history_after ms = ms.drop (ms.length - 10) ∧
      (server_history_after ms).length = min ms.length 10) ∧
    (∀ (st : ServerState) (t u m : String), 10 ≤ st.RECENT_MESSAGES.length →
      (update_history st t u m).RECENT_MESSAGES
        = st.RECENT_MESSAGES.tail ++ [(t, u, m)]) ∧
    (∀ (selfIp : String) (st : NodeState) (ds : List (String × Envelope × String)),
      st.RECENT_MESSAGES = [] →
      (∀ d ∈ ds, d.2.1.protocol_num = 472 ∧ ∃ x, d.2.1.message = Payload.str x) →
      (run_datagrams selfIp st ds).1.RECENT_MESSAGES
          = (ds.map (fun d => format_message d.1 d.2.1.username
              (payload_str d.2.1.message))).drop (ds.length - 10) ∧
        (run_datagrams selfIp st ds).1.RECENT_MESSAGES.length = min ds.length 10) := by
  refine ⟨?_, ?_, ?_⟩
  · intro ms
    have h := server_history_after_eq ms
    refine ⟨h, ?_⟩
    rw [h, List.length_drop]
    omega
  · intro st t u m h
    unfold update_history
    simp only [if_pos h]
  · intro selfIp st ds hempty hall
    rw [run_datagrams_472_state selfIp ds st (fun d hd => (hall d hd).1)]
    simp only []
    rw [hempty, fifo_append_foldl]
    constructor
    · rw [List.length_map]
    · rw [List.length_drop, List.length_map]
      omega

/-- Witness for C1 at concrete inputs: two TCP appends stay in order; an
append onto a full 10-entry buffer evicts the head first; one UDP
ChatBroadcast datagram lands in an empty local history. -/
theorem c1_history_bound_witness :
    (server_history_after [("1", "a", "x"), ("2", "b", "y")]
        = [("1", "a", "x"), ("2", "b", "y")].drop
            ([("1", "a", "x"), ("2", "b", "y")].length - 10) ∧
      (server_history_after [("1", "a", "x"), ("2", "b", "y")]).length
        = min [("1", "a", "x"), ("2", "b", "y")].length 10) ∧
    ((update_history ⟨[], [],
        [("0", "u", "0"), ("1", "u", "1"), ("2", "u", "2"), ("3", "u", "3"), ("4", "u", "4"),
          ("5", "u", "5"), ("6", "u", "6"), ("7", "u", "7"), ("8", "u", "8"),
          ("9", "u", "9")]⟩ "t" "u" "m").RECENT_MESSAGES
      = [("0", "u", "0"), ("1", "u", "1"), ("2", "u", "2"), ("3", "u", "3"), ("4", "u", "4"),
          ("5", "u", "5"), ("6", "u", "6"), ("7", "u", "7"), ("8", "u", "8"),
          ("9", "u", "9")].tail ++ [("t", "u", "m")]) ∧
    ((run_datagrams "10.0.0.1" ⟨"me", true, []⟩
        [("09:00:00", ⟨472, "bob", Payload.str "hi"⟩, "10.0.0.2")]).1.RECENT_MESSAGES
      = ["> 09:00:00 bob: hi"].drop (1 - 10)) :=
  ⟨c1_history_bound.1 [("1", "a", "x"), ("2", "b", "y")],
    c1_history_bound.2.1 _ "t" "u" "m" (by decide),
    (c1_history_bound.2.2 "10.0.0.1" _ _ rfl
      (by intro d hd; refine ⟨?_, "hi", ?_⟩ <;> simp at hd <;> rw [hd]) ).1⟩

/-- C2: a TCP JoinRequest whose username collides with a live connection
is answered with accepted=false and a close, and leaves the username
list, the history and the writer list exactly as they were before the
joining connection arrived; and handling any request stream preserves the
invariant that no two registry records share a username. -/
theorem c2_unique_username :
    (∀ (st : ServerState) (w : Nat) (addr uname : String) (pb ub rest : List Nat),
      w ∉ st.WRITERS →
      pack_i32 471 = some pb → send_str uname = some ub →
      st.USERNAMES_LIST.any (fun cid => uname == cid.2) = true →
      server_handle_request st w addr (pb ++ ub ++ rest)
        = (st, [Out.sendBool w false, Out.close w])) ∧
    (∀ (st : ServerState) (w : Nat) (addr : String) (s : List Nat),
      UsernamesDistinct st →
      UsernamesDistinct (server_handle_request st w addr s).1) := by
  constructor
  · intro st w addr uname pb ub rest hw hpb hub hdup
    unfold server_handle_request
    rw [List.append_assoc]
    have hr : recv_single_value_i (pb ++ (ub ++ rest)) = some ((471 : Int), ub ++ rest) :=
      recv_single_value_i_pack (ub ++ rest) hpb
    have hstr : recv_str (ub ++ rest) = some (uname, rest) := recv_str_send_str rest hub
    rw [server_loop_join_dup { st with WRITERS := st.WRITERS ++ [w] } w addr none hr hstr
      hdup (List.mem_append_right st.WRITERS (List.mem_singleton.mpr rfl))]
    rw [show py_remove (st.WRITERS ++ [w]) w = st.WRITERS from py_remove_append_self hw]
  · intro st w addr s h
    exact server_loop_distinct s.length _ w addr none s (le_refl _) h

/-- Witness for C2: a fresh connection (writer 7) tries to join as bob
while bob is live; the registry is untouched and the reply is false with
a close; and the distinctness invariant is preserved on a concrete
two-user registry fed an empty stream. -/
theorem c2_unique_username_witness :
    (server_handle_request
        { WRITERS := [5], USERNAMES_LIST := [("10.0.0.9", "bob")], RECENT_MESSAGES := [] }
        7 "10.0.0.4" ([215, 1, 0, 0] ++ [3, 0, 0, 0, 98, 111, 98] ++ [])
      = ({ WRITERS := [5], USERNAMES_LIST := [("10.0.0.9", "bob")], RECENT_MESSAGES := [] },
          [Out.sendBool 7 false, Out.close 7])) ∧
    UsernamesDistinct (server_handle_request
        ⟨[1, 2], [("a", "u1"), ("b", "u2")], []⟩ 3 "c" []).1 :=
  ⟨c2_unique_username.1 _ 7 "10.0.0.4" "bob" _ _ []
      (by decide) (by decide) (by decide) (by decide),
    c2_unique_username.2 _ 3 "c" []
      (by unfold UsernamesDistinct; simp)⟩

/-- C3: a PostMessage (472) carrying the triple (t,u,m) makes the server
write the unchanged triple as a 372 Broadcast to every writer registered
at the moment of posting - in particular to every writer other than the
poster's own - before the history append, and appends that triple to the
shared history exactly once (one fifo_append). -/
theorem c3_fanout :
    ∀ (st : ServerState) (w : Nat) (addr : String) (ui : Option (String × String))
      (t u m : String) (pb lb rest : List Nat),
      pack_i32 472 = some pb → send_str_list [t, u, m] = some lb →
      (server_loop st w addr ui (pb ++ lb ++ rest)
          = ((server_loop (update_history st t u m) w addr ui rest).1,
            send_new_message st [t, u, m] ++
              (server_loop (update_history st t u m) w addr ui rest).2) ∧
        (∀ w2 ∈ st.WRITERS, w2 ≠ w →
          Out.sendBroadcast w2 [t, u, m] ∈ send_new_message st [t, u, m]) ∧
        (update_history st t u m).RECENT_MESSAGES
          = fifo_append st.RECENT_MESSAGES (t, u, m)) := by
  intro st w addr ui t u m pb lb rest hpb hlb
  have hr : recv_single_value_i (pb ++ (lb ++ rest)) = some ((472 : Int), lb ++ rest) :=
    recv_single_value_i_pack (lb ++ rest) hpb
  have hlist : recv_str_list (lb ++ rest) = some ([t, u, m], rest) :=
    recv_str_list_send_str_list rest hlb
  refine ⟨?_, ?_, update_history_recent st t u m⟩
  · rw [List.append_assoc]
    exact server_loop_post st w addr ui hr hlist
  · intro w2 hw2 _
    exact List.mem_map.mpr ⟨w2, hw2, rfl⟩

/-- Witness for C3: posting ("10:00:00","B","hi") on a server with
writers 1, 2 and 3 (poster is 2) broadcasts the unchanged triple to 1 and
3 as well, and appends it once. -/
theorem c3_fanout_witness :
    (server_loop ⟨[1, 2, 3], [("a", "A"), ("b", "B")], []⟩ 2 "b" (some ("b", "B"))
        ([216, 1, 0, 0] ++
          [3, 0, 0, 0, 8, 0, 0, 0, 49, 48, 58, 48, 48, 58, 48, 48, 1, 0, 0, 0, 66,
            2, 0, 0, 0, 104, 105] ++ [])
        = ((server_loop (update_history ⟨[1, 2, 3], [("a", "A"), ("b", "B")], []⟩
              "10:00:00" "B" "hi") 2 "b" (some ("b", "B")) []).1,
          send_new_message ⟨[1, 2, 3], [("a", "A"), ("b", "B")], []⟩
              ["10:00:00", "B", "hi"] ++
            (server_loop (update_history ⟨[1, 2, 3], [("a", "A"), ("b", "B")], []⟩
              "10:00:00" "B" "hi") 2 "b" (some ("b", "B")) []).2) ∧
      (∀ w2 ∈ [1, 2, 3], w2 ≠ 2 →
        Out.sendBroadcast w2 ["10:00:00", "B", "hi"] ∈
          send_new_message ⟨[1, 2, 3], [("a", "A"), ("b", "B")], []⟩
            ["10:00:00", "B", "hi"]) ∧
      (update_history ⟨[1, 2, 3], [("a", "A"), ("b", "B")], []⟩
          "10:00:00" "B" "hi").RECENT_MESSAGES
        = fifo_append [] ("10:00:00", "B", "hi")) :=
  c3_fanout _ 2 "b" (some ("b", "B")) "10:00:00" "B" "hi" _ _ []
    (by decide) (by decide)

/-- C4: the length-prefixed string codec and the string-list codec round
trip: whenever send_str (resp. send_str_list) produces a byte stream,
recv_str (resp. recv_str_list) on that stream followed by anything
returns the original value and consumes exactly those bytes. -/
theorem c4_codec_roundtrip :
    (∀ (s : String) (b rest : List Nat), send_str s = some b →
      recv_str (b ++ rest) = some (s, rest)) ∧
    (∀ (l : List String) (b rest : List Nat), send_str_list l = some b →
      recv_str_list (b ++ rest) = some (l, rest)) :=
  ⟨fun _ _ rest h => recv_str_send_str rest h,
    fun _ _ rest h => recv_str_list_send_str_list rest h⟩

/-- Witness for C4: the empty string, a string whose UTF-8 encoding (two
bytes for the ohm sign U+03A9) is longer than its character count, and a
list containing both round trip. -/
theorem c4_codec_roundtrip_witness :
    recv_str ([0, 0, 0, 0] ++ [9, 9]) = some ("", [9, 9]) ∧
    recv_str ([2, 0, 0, 0, 206, 169] ++ []) = some ("Ω", []) ∧
    recv_str_list ([2, 0, 0, 0, 0, 0, 0, 0, 2, 0, 0, 0, 206, 169] ++ [7])
      = some (["", "Ω"], [7]) :=
  ⟨c4_codec_roundtrip.1 "" _ [9, 9] (by decide),
    c4_codec_roundtrip.1 "Ω" _ [] (by decide),
    c4_codec_roundtrip.2 ["", "Ω"] _ [7] (by decide)⟩

/-- recv_str on a stream whose payload falls short of the announced
length: reader.read returns the short payload and bytes.decode is applied
to it as is - no length check happens. -/
theorem recv_str_short {n : Nat} {pre : List Nat} (payload : List Nat)
    (hpre : pack_i32 n = some pre) (hlen : payload.length < n) :
    recv_str (pre ++ payload)
      = (utf8DecodeChars payload).map (fun cs => (String.mk cs, ([] : List Nat))) := by
  unfold recv_str
  rw [recv_single_value_i_pack payload hpre]
  simp only [Option.some_bind]
  have hrb : readBytes ((n : Nat) : Int) payload = (payload, []) := by
    unfold readBytes
    rw [if_neg (not_lt.mpr (Int.natCast_nonneg _)), Int.toNat_natCast,
      List.take_of_length_le (by omega), List.drop_of_length_le (by omega)]
  rw [hrb]
  cases utf8DecodeChars payload <;> simp

/-- C5 counterexample: the claim says every receive operation fails
explicitly when the stream yields fewer bytes than the expected count.
But on the stream 05 00 00 00 61 62 - a length prefix announcing 5
payload bytes followed by only the 2 bytes of "ab" before end of stream -
recv_str does not fail: it returns the string "ab" built from the short
read, because the payload read (line 34 of tcp_client_server_chat.py) is
reader.read(length) with no check of how many bytes were obtained. -/
theorem c5_counterexample : recv_str [5, 0, 0, 0, 97, 98] = some ("ab", []) := by
  have hd : utf8DecodeChars [97, 98] = some ['a', 'b'] := by
    have h := utf8DecodeChars_encode_chars ['a', 'b'] []
    rw [show (['a', 'b'].flatMap utf8EncodeChar ++ ([] : List Nat)) = [97, 98] from by
      decide] at h
    rw [h, utf8DecodeChars]
    simp
  have he : recv_str [5, 0, 0, 0, 97, 98]
      = (utf8DecodeChars [97, 98]).map (fun cs => (String.mk cs, ([] : List Nat))) :=
    recv_str_short [97, 98] (show pack_i32 5 = some [5, 0, 0, 0] from by decide)
      (by decide)
  rw [he, hd]
  decide

/-- C5 amended: recv_formatted_data (and with it every fixed-width read:
tags, lengths, counts, the accept flag) does fail explicitly on a short
read, because struct.unpack rejects a buffer of the wrong size.  But
recv_str's payload read performs no byte-count check: when the stream
yields fewer payload bytes than the announced length, recv_str returns
whatever the short payload decodes to, failing only if those bytes are
not decodable UTF-8; recv_str_list inherits both behaviours. -/
theorem c5_framing_amended :
    (∀ (size : Nat) (s : List Nat), s.length < size → recv_formatted_data size s = none) ∧
    (∀ s : List Nat, s.length < 4 → recv_single_value_i s = none) ∧
    (∀ (n : Nat) (pre payload : List Nat), pack_i32 n = some pre → payload.length < n →
      recv_str (pre ++ payload)
        = (utf8DecodeChars payload).map (fun cs => (String.mk cs, ([] : List Nat)))) := by
  refine ⟨?_, ?_, ?_⟩
  · intro size s h
    unfold recv_formatted_data
    rw [if_pos h]
  · intro s h
    unfold recv_single_value_i recv_formatted_data
    rw [if_pos h]
    rfl
  · intro n pre payload hpre hlen
    exact recv_str_short payload hpre hlen

/-- Witness for C5 amended: a 2-byte stream makes the 4-byte tag read
fail; the truncated "ab" payload is silently accepted by recv_str. -/
theorem c5_framing_amended_witness :
    recv_formatted_data 4 [0, 0] = none ∧
    recv_single_value_i [0, 0] = none ∧
    recv_str ([5, 0, 0, 0] ++ [97, 98])
      = (utf8DecodeChars [97, 98]).map (fun cs => (String.mk cs, ([] : List Nat))) :=
  ⟨c5_framing_amended.1 4 [0, 0] (by decide),
    c5_framing_amended.2.1 [0, 0] (by decide),
    c5_framing_amended.2.2 5 [5, 0, 0, 0] [97, 98] (by decide) (by decide)⟩

/-- C6 counterexample: the claim says any tag other than 471/472
disconnects the connection (record removed, writer closed) and nothing
further is processed.  But on the stream tag 999 / tag 471 / username "a"
the server ignores the unknown tag 999, then processes the join that
follows it (the accept flag True and the history reply are sent), and
only tears the connection down at end of stream - so an unknown tag
neither removed the record nor closed the writer nor stopped the loop. -/
theorem c6_counterexample :
    server_handle_request { WRITERS := [], USERNAMES_LIST := [], RECENT_MESSAGES := [] }
        0 "A" [231, 3, 0, 0, 215, 1, 0, 0, 1, 0, 0, 0, 97]
      = ({ WRITERS := [], USERNAMES_LIST := [], RECENT_MESSAGES := [] },
          [Out.sendBool 0 true, Out.sendHistory 0 [], Out.close 0]) := by
  unfold server_handle_request
  rw [server_loop_unknown _ 0 "A" none
    (show recv_single_value_i [231, 3, 0, 0, 215, 1, 0, 0, 1, 0, 0, 0, 97]
      = some ((999 : Int), [215, 1, 0, 0, 1, 0, 0, 0, 97]) from by decide)
    (by decide) (by decide)]
  rw [server_loop_join_ok _ 0 "A" none
    (show recv_single_value_i [215, 1, 0, 0, 1, 0, 0, 0, 97]
      = some ((471 : Int), [1, 0, 0, 0, 97]) from by decide)
    (show recv_str [1, 0, 0, 0, 97] = some ("a", []) from
      @recv_str_send_str "a" [1, 0, 0, 0, 97] [] (by decide))
    (by decide)]
  rw [server_loop_eof_cleanup_joined _ 0 "A"
    (show recv_single_value_i [] = none from by decide) (by decide) (by decide)]
  decide

/-- C6 amended: a tag other than 471/472 is ignored - the loop continues
awaiting the next tag with the registry untouched and nothing written.
Only a tag read that cannot obtain its 4 bytes (end of stream,
struct.error) exits the loop; then, for a connection that had joined, its
record is removed, its writer removed and closed, and no further
messages are processed. -/
theorem c6_amended :
    (∀ (st : ServerState) (w : Nat) (addr : String) (ui : Option (String × String))
      (s : List Nat) (tag : Int) (s1 : List Nat),
      recv_single_value_i s = some (tag, s1) → tag ≠ 471 → tag ≠ 472 →
      server_loop st w addr ui s = server_loop st w addr ui s1) ∧
    (∀ (st : ServerState) (w : Nat) (addr : String) (ui : Option (String × String))
      (s : List Nat), recv_single_value_i s = none →
      server_loop st w addr ui s = conn_cleanup st w ui) ∧
    (∀ (st : ServerState) (w : Nat) (addr : String) (u : String × String) (s : List Nat),
      recv_single_value_i s = none → u ∈ st.USERNAMES_LIST → w ∈ st.WRITERS →
      server_loop st w addr (some u) s
        = ({ WRITERS := py_remove st.WRITERS w,
             USERNAMES_LIST := py_remove st.USERNAMES_LIST u,
             RECENT_MESSAGES := st.RECENT_MESSAGES }, [Out.close w])) :=
  ⟨fun st w addr ui _ _ _ h h471 h472 => server_loop_unknown st w addr ui h h471 h472,
    fun st w addr ui _ h => server_loop_eof st w addr ui h,
    fun st w addr _ _ h hu hw => server_loop_eof_cleanup_joined st w addr h hu hw⟩

/-- Witness for C6 amended: tag 999 on a fresh registry is skipped; a
2-byte stream ends the loop; a joined connection (writer 4, user a at
address A) is cleaned up on end of stream. -/
theorem c6_amended_witness :
    server_loop { WRITERS := [], USERNAMES_LIST := [], RECENT_MESSAGES := [] } 0 "B"
        none [231, 3, 0, 0]
      = server_loop { WRITERS := [], USERNAMES_LIST := [], RECENT_MESSAGES := [] }
          0 "B" none [] ∧
    server_loop { WRITERS := [], USERNAMES_LIST := [], RECENT_MESSAGES := [] } 0 "B"
        none [7, 7]
      = conn_cleanup { WRITERS := [], USERNAMES_LIST := [], RECENT_MESSAGES := [] } 0 none ∧
    server_loop { WRITERS := [4], USERNAMES_LIST := [("A", "a")], RECENT_MESSAGES := [] }
        4 "A" (some ("A", "a")) []
      = ({ WRITERS := py_remove [4] 4, USERNAMES_LIST := py_remove [("A", "a")] ("A", "a"),
           RECENT_MESSAGES := [] }, [Out.close 4]) :=
  ⟨c6_amended.1 _ 0 "B" none [231, 3, 0, 0] 999 [] (by decide) (by decide) (by decide),
    c6_amended.2.1 _ 0 "B" none [7, 7] (by decide),
    c6_amended.2.2 _ 4 "A" ("A", "a") [] (by decide) (by decide) (by decide)⟩

/-- C7: the claim says every disconnect's cleanup completes without
raising, including for a connection whose stream ends before a
successful join.  But a connection that arrives and reaches end of
stream without joining leaves the loop with user_info still the empty
tuple, so USERNAMES_LIST.remove(()) (line 296 of
tcp_client_server_chat.py) raises ValueError: the handler dies, the
writer is never removed from WRITERS and is never closed - evaluated
here on an empty byte stream against an empty registry. -/
theorem c7_prejoin_cleanup_crash :
    server_handle_request { WRITERS := [], USERNAMES_LIST := [], RECENT_MESSAGES := [] }
        0 "A" []
      = ({ WRITERS := [0], USERNAMES_LIST := [], RECENT_MESSAGES := [] }, [Out.crash]) := by
  unfold server_handle_request
  rw [server_loop_eof _ 0 "A" none (by decide)]
  decide

/-- C8: a node whose NEW_USER latch is still set adopts the first
HistorySync (371) envelope it receives - its history is replaced
wholesale by the payload and every adopted entry is printed, and the
latch is cleared by that adoption; any 371 envelope arriving with the
latch cleared leaves the state untouched and produces no output; hence
over any nonempty all-371 datagram sequence only the first envelope has
any effect. -/
theorem c8_idempotent_adoption :
    (∀ (st : NodeState) (selfIp now : String) (env : Envelope) (addrIp : String),
      env.protocol_num = 371 → st.NEW_USER = true →
      datagram_received st selfIp now env addrIp =
        ({ st with RECENT_MESSAGES := payload_entries env.message, NEW_USER := false },
          (payload_entries env.message).map UdpOut.print)) ∧
    (∀ (st : NodeState) (selfIp now : String) (env : Envelope) (addrIp : String),
      env.protocol_num = 371 → st.NEW_USER = false →
      datagram_received st selfIp now env addrIp = (st, [])) ∧
    (∀ (st : NodeState) (selfIp : String) (e : String × Envelope × String)
        (es : List (String × Envelope × String)),
      st.NEW_USER = true → (∀ d ∈ e :: es, d.2.1.protocol_num = 371) →
      run_datagrams selfIp st (e :: es) =
        ({ st with RECENT_MESSAGES := payload_entries e.2.1.message, NEW_USER := false },
          (payload_entries e.2.1.message).map UdpOut.print)) := by
  refine ⟨datagram_received_371_adopt, datagram_received_371_noop, ?_⟩
  intro st selfIp e es hnew hall
  rw [run_datagrams]
  rw [datagram_received_371_adopt st selfIp e.1 e.2.1 e.2.2 (hall e (by simp)) hnew]
  rw [run_datagrams_371_noop selfIp es _ rfl (fun x hx => hall x (by simp [hx]))]
  simp

/-- Witness for C8: a node that announced as "me" receives two 371
replies; the first history ["old"] is adopted and printed, the second
["other"] is a no-op. -/
theorem c8_idempotent_adoption_witness :
    datagram_received ⟨"me", true, []⟩ "10.0.0.1" "09:00:00"
        ⟨371, "peer", Payload.list ["old"]⟩ "10.0.0.2"
      = (⟨"me", false, ["old"]⟩, [UdpOut.print "old"]) ∧
    datagram_received ⟨"me", false, ["old"]⟩ "10.0.0.1" "09:00:01"
        ⟨371, "peer2", Payload.list ["other"]⟩ "10.0.0.3"
      = (⟨"me", false, ["old"]⟩, []) ∧
    run_datagrams "10.0.0.1" ⟨"me", true, []⟩
        [("09:00:00", ⟨371, "peer", Payload.list ["old"]⟩, "10.0.0.2"),
          ("09:00:01", ⟨371, "peer2", Payload.list ["other"]⟩, "10.0.0.3")]
      = (⟨"me", false, ["old"]⟩, [UdpOut.print "old"]) :=
  ⟨c8_idempotent_adoption.1 ⟨"me", true, []⟩ "10.0.0.1" "09:00:00"
      ⟨371, "peer", Payload.list ["old"]⟩ "10.0.0.2" rfl rfl,
    c8_idempotent_adoption.2.1 ⟨"me", false, ["old"]⟩ "10.0.0.1" "09:00:01"
      ⟨371, "peer2", Payload.list ["other"]⟩ "10.0.0.3" rfl rfl,
    c8_idempotent_adoption.2.2 ⟨"me", true, []⟩ "10.0.0.1"
      ("09:00:00", ⟨371, "peer", Payload.list ["old"]⟩, "10.0.0.2")
      [("09:00:01", ⟨371, "peer2", Payload.list ["other"]⟩, "10.0.0.3")] rfl
      (by intro d hd; simp at hd; rcases hd with h | h <;> rw [h] <;> rfl)⟩

/-- C9: on an Announce (471) envelope, if the sender's address differs
from the node's own (get_ip) address the node replies unicast to the
sender with exactly one envelope - 371 with its username and full local
history when the announced username differs from its own, 370 with empty
username and payload when they collide - and its state is unchanged; if
the sender's address equals its own, nothing is sent. -/
theorem c9_announce_reply :
    ∀ (st : NodeState) (selfIp now : String) (env : Envelope) (addrIp : String),
      env.protocol_num = 471 →
      (addrIp ≠ selfIp →
        datagram_received st selfIp now env addrIp =
          (st, [if env.username ≠ st.USERNAME then
                  UdpOut.sendto ⟨371, st.USERNAME, Payload.list st.RECENT_MESSAGES⟩ addrIp
                else UdpOut.sendto ⟨370, "", Payload.str ""⟩ addrIp])) ∧
      (addrIp = selfIp → datagram_received st selfIp now env addrIp = (st, [])) := by
  intro st selfIp now env addrIp h
  constructor
  · intro hne
    unfold datagram_received
    rw [h, if_neg (show ¬((471 : Int) = 370) from by decide),
      if_neg (show ¬((471 : Int) = 371) from by decide),
      if_pos (show (471 : Int) = 471 from rfl), if_pos hne]
    unfold send_history
    split_ifs <;> rfl
  · intro heq
    unfold datagram_received
    rw [h, if_neg (show ¬((471 : Int) = 370) from by decide),
      if_neg (show ¬((471 : Int) = 371) from by decide),
      if_pos (show (471 : Int) = 471 from rfl), if_neg (by simp [heq])]

/-- Witness for C9: node "me" with history ["h"] at 10.0.0.1 answers an
announce from "bob" at 10.0.0.2 with one 371 envelope; an announce that
echoes back from its own address gets no reply. -/
theorem c9_announce_reply_witness :
    datagram_received ⟨"me", false, ["h"]⟩ "10.0.0.1" "09:00:00"
        ⟨471, "bob", Payload.str ""⟩ "10.0.0.2"
      = (⟨"me", false, ["h"]⟩,
          [if "bob" ≠ "me" then
            UdpOut.sendto ⟨371, "me", Payload.list ["h"]⟩ "10.0.0.2"
          else UdpOut.sendto ⟨370, "", Payload.str ""⟩ "10.0.0.2"]) ∧
    datagram_received ⟨"me", false, ["h"]⟩ "10.0.0.1" "09:00:00"
        ⟨471, "bob", Payload.str ""⟩ "10.0.0.1"
      = (⟨"me", false, ["h"]⟩, []) :=
  ⟨(c9_announce_reply ⟨"me", false, ["h"]⟩ "10.0.0.1" "09:00:00"
      ⟨471, "bob", Payload.str ""⟩ "10.0.0.2" rfl).1 (by decide),
    (c9_announce_reply ⟨"me", false, ["h"]⟩ "10.0.0.1" "09:00:00"
      ⟨471, "bob", Payload.str ""⟩ "10.0.0.1" rfl).2 rfl⟩

/-- Every value start_chatting can return carries either None or the
very username the user typed: rejection, an error caught around the
accept-flag read, and the accepted path all end in return None or
return username. -/
theorem start_chatting_ret {username : String} {s : List Nat} {r : JoinResult}
    (h : start_chatting username s = some r) :
    r.ret = none ∨ r.ret = some username := by
  unfold start_chatting at h
  cases h471 : pack_i32 471 with
  | none => simp [h471] at h
  | some p1 =>
    cases hsend : send_str username with
    | none => simp [h471, hsend] at h
    | some p2 =>
      simp only [h471, hsend] at h
      cases hb : recv_single_value_b s with
      | none =>
        simp only [hb] at h
        injection h with h2
        rw [← h2]
        exact Or.inl rfl
      | some p =>
        obtain ⟨status, s1⟩ := p
        simp only [hb] at h
        split_ifs at h with hst
        · injection h with h2
          rw [← h2]
          exact Or.inl rfl
        · cases hi : recv_single_value_i s1 with
          | none => simp [hi] at h
          | some q =>
            obtain ⟨response, s2⟩ := q
            simp only [hi] at h
            split_ifs at h with h371
            · cases hn : recv_single_value_i s2 with
              | none => simp [hn] at h
              | some nq =>
                obtain ⟨num, s3⟩ := nq
                simp only [hn] at h
                cases hh : recv_history num.toNat s3 with
                | none => simp [hh] at h
                | some pr =>
                  obtain ⟨printed, s4⟩ := pr
                  simp only [hh] at h
                  injection h with h2
                  rw [← h2]
                  exact Or.inr rfl
            · injection h with h2
              rw [← h2]
              exact Or.inr rfl

/-- C10: a TCP client that is accepted under the empty-string username
consumes the accept flag and the whole history replay, start_chatting
returns that empty username - and connect_to_server then never starts
the two chat loops, because the returned username is tested for Python
truthiness (empty string is falsy) rather than compared with the accept
flag.  With any username equal to "", the chat decision can never come
out true. -/
theorem c10_empty_username :
    (∀ (s : List Nat) (b : Bool), connect_to_server_chats "" s = some b → b = false) ∧
    (∀ (hs : List Msg) (bs : List Nat), send_history_bytes hs = some bs →
      start_chatting "" (1 :: bs)
          = some ⟨hs.map (fun m => m.1 ++ " " ++ m.2.1 ++ ": " ++ m.2.2), some ""⟩ ∧
        connect_to_server_chats "" (1 :: bs) = some false) := by
  constructor
  · intro s b h
    unfold connect_to_server_chats at h
    cases hsc : start_chatting "" s with
    | none => rw [hsc] at h; exact absurd h (by simp)
    | some r =>
      rw [hsc] at h
      simp only [Option.map_some', Option.some.injEq] at h
      rcases start_chatting_ret hsc with h1 | h1 <;> rw [← h, h1] <;> rfl
  · intro hs bs hsb
    unfold send_history_bytes at hsb
    rw [show pack_i32 371 = some [115, 1, 0, 0] from by decide] at hsb
    cases hc : pack_i32 hs.length with
    | none => rw [hc] at hsb; simp at hsb
    | some c =>
      cases hbody : send_msgs_bytes hs with
      | none => rw [hc, hbody] at hsb; simp at hsb
      | some body =>
        rw [hc, hbody] at hsb
        injection hsb with hbs
        subst hbs
        have hmain : start_chatting "" (1 :: ([115, 1, 0, 0] ++ c ++ body))
            = some ⟨hs.map (fun m => m.1 ++ " " ++ m.2.1 ++ ": " ++ m.2.2), some ""⟩ := by
          unfold start_chatting
          rw [show pack_i32 471 = some [215, 1, 0, 0] from by decide,
            show send_str "" = some [0, 0, 0, 0] from by decide]
          have hb : recv_single_value_b (1 :: ([115, 1, 0, 0] ++ c ++ body))
              = some (true, [115, 1, 0, 0] ++ c ++ body) := by
            unfold recv_single_value_b recv_formatted_data
            rw [if_neg (by simp)]
            rfl
          rw [hb]
          simp only []
          rw [if_neg (by simp)]
          rw [List.append_assoc]
          rw [show recv_single_value_i ([115, 1, 0, 0] ++ (c ++ body))
              = some ((371 : Int), c ++ body) from
            recv_single_value_i_pack (c ++ body)
              (show pack_i32 371 = some [115, 1, 0, 0] from by decide)]
          simp only []
          rw [if_true]
          rw [recv_single_value_i_pack body hc]
          simp only [Int.toNat_natCast]
          rw [show recv_history hs.length body
              = some (hs.map (fun m => m.1 ++ " " ++ m.2.1 ++ ": " ++ m.2.2), []) from by
            have hr := recv_history_msgs [] hbody
            rw [List.append_nil] at hr
            exact hr]
        refine ⟨hmain, ?_⟩
        unfold connect_to_server_chats
        rw [hmain]
        rfl

/-- Witness for C10: an accept byte followed by the server's history
reply for the single triple ("10:00:00","B","hi") makes start_chatting
with the empty username print the replayed line and return the empty
username, and the chat loops are not started. -/
theorem c10_empty_username_witness :
    start_chatting ""
        (1 :: [115, 1, 0, 0, 1, 0, 0, 0, 3, 0, 0, 0, 8, 0, 0, 0, 49, 48, 58, 48, 48,
          58, 48, 48, 1, 0, 0, 0, 66, 2, 0, 0, 0, 104, 105])
        = some ⟨[("10:00:00", "B", "hi")].map
            (fun m => m.1 ++ " " ++ m.2.1 ++ ": " ++ m.2.2), some ""⟩ ∧
      connect_to_server_chats ""
        (1 :: [115, 1, 0, 0, 1, 0, 0, 0, 3, 0, 0, 0, 8, 0, 0, 0, 49, 48, 58, 48, 48,
          58, 48, 48, 1, 0, 0, 0, 66, 2, 0, 0, 0, 104, 105]) = some false :=
  c10_empty_username.2 [("10:00:00", "B", "hi")]
    [115, 1, 0, 0, 1, 0, 0, 0, 3, 0, 0, 0, 8, 0, 0, 0, 49, 48, 58, 48, 48, 58, 48,
      48, 1, 0, 0, 0, 66, 2, 0, 0, 0, 104, 105] (by decide)

end Chat
